import Mathlib

/-!
Verification of the spreadsheet-context streaming chat bridge
(frontend of the cursor-ai-excel-addin repository).

The development shallowly embeds the relevant source functions:
strings are `List Char`, JS promises that may reject are `Except` values,
the host spreadsheet API is an abstract record of `Except`-returning
operations, and issued host calls are recorded in an explicit trace.
-/

set_option maxHeartbeats 1000000
set_option maxRecDepth 16384

namespace CursorExcel

/-- Characters of a string literal; the embedding works on `List Char`. -/
def lit (s : String) : List Char := s.data

/-! ## Shared string utilities (JS built-ins used by the source) -/

/-- JS `String.prototype.startsWith` on character lists: first argument is the pattern. -/
def startsWithL : List Char → List Char → Bool
  | [], _ => true
  | _ :: _, [] => false
  | p :: ps, c :: cs => p == c && startsWithL ps cs

/-- JS `String.prototype.includes`: does `pat` occur as a contiguous substring? -/
def hasSub (pat : List Char) : List Char → Bool
  | [] => pat.isEmpty
  | c :: cs => startsWithL pat (c :: cs) || hasSub pat cs

/-- JS `String.prototype.replace` with a global string-literal regex:
leftmost-first, non-overlapping replacement of the non-empty pattern
`p :: ps` by `repl` (the replacement text is not rescanned). -/
def replaceAllFrom (p : Char) (ps repl : List Char) : List Char → List Char
  | [] => []
  | c :: cs =>
    if startsWithL (p :: ps) (c :: cs) then
      repl ++ replaceAllFrom p ps repl (cs.drop ps.length)
    else
      c :: replaceAllFrom p ps repl cs
termination_by s => s.length
decreasing_by
  · simp only [List.length_drop, List.length_cons]
    omega
  · simp

/-- Global replacement of `pat` by `repl` (identity on the empty pattern,
which never occurs in the source). -/
def replaceAll (pat repl s : List Char) : List Char :=
  match pat with
  | [] => s
  | p :: ps => replaceAllFrom p ps repl s

/-- JS `Array.prototype.join` with separator `sep`. -/
def joinSep (sep : List Char) : List (List Char) → List Char
  | [] => []
  | [x] => x
  | x :: y :: xs => x ++ sep ++ joinSep sep (y :: xs)

/-- Decimal rendering of a natural number, as produced by JS number-to-string
coercion on a non-negative integral number. -/
def natDecimal (n : Nat) : List Char :=
  if n < 10 then [Char.ofNat (48 + n)]
  else natDecimal (n / 10) ++ [Char.ofNat (48 + n % 10)]
termination_by n
decreasing_by
  exact Nat.div_lt_self (by omega) (by omega)

/-- Decimal rendering of an integer (JS `${i}` for an integral number). -/
def intDecimal (i : Int) : List Char :=
  if i < 0 then '-' :: natDecimal (-i).toNat else natDecimal i.toNat

/-! ## Address/Index Codec

`indexToAddress` (excelBridge.ts, lines 305-315) and `indexToExcelAddress`
(runtimeProvider.tsx, lines 152-162) are verbatim duplicates:

```
let columnName = '';
let tempCol = col;
while (tempCol >= 0) {
  columnName = String.fromCharCode(65 + (tempCol % 26)) + columnName;
  tempCol = Math.floor(tempCol / 26) - 1;
}
return columnName + (row + 1);
```
-/

/-- Loop of `indexToAddress` (excelBridge.ts): starting from a non-negative
`tempCol`, one iteration prepends `String.fromCharCode(65 + tempCol % 26)` and
updates `tempCol := tempCol / 26 - 1`; the loop exits once the updated value is
negative, i.e. exactly when the current `tempCol < 26`. -/
def colNameAux (tempCol : Nat) (acc : List Char) : List Char :=
  let acc' := Char.ofNat (65 + tempCol % 26) :: acc
  if tempCol < 26 then acc' else colNameAux (tempCol / 26 - 1) acc'
termination_by tempCol
decreasing_by
  have h1 : tempCol / 26 ≤ tempCol := Nat.div_le_self _ _
  have h2 : 0 < tempCol / 26 := Nat.div_pos (by omega) (by omega)
  omega

/-- `indexToAddress(row, col)` from the Tool-Call Bridge (excelBridge.ts):
bijective base-26 column letters followed by the decimal rendering of
`row + 1`. `col` is a non-negative index; `row` may be any integer. -/
def indexToAddress (row : Int) (col : Nat) : List Char :=
  colNameAux col [] ++ intDecimal (row + 1)

/-- Loop of `indexToExcelAddress` (runtimeProvider.tsx) — a verbatim duplicate
of the loop of `indexToAddress`. -/
def excelColNameAux (tempCol : Nat) (acc : List Char) : List Char :=
  let acc' := Char.ofNat (65 + tempCol % 26) :: acc
  if tempCol < 26 then acc' else excelColNameAux (tempCol / 26 - 1) acc'
termination_by tempCol
decreasing_by
  have h1 : tempCol / 26 ≤ tempCol := Nat.div_le_self _ _
  have h2 : 0 < tempCol / 26 := Nat.div_pos (by omega) (by omega)
  omega

/-- `indexToExcelAddress(row, col)` from the Preprocessor
(runtimeProvider.tsx) — a verbatim duplicate of `indexToAddress`. -/
def indexToExcelAddress (row : Int) (col : Nat) : List Char :=
  excelColNameAux col [] ++ intDecimal (row + 1)

/-- Is `c` an ASCII uppercase letter (a bijective base-26 digit)? -/
def isUpperLetter (c : Char) : Bool := 65 ≤ c.toNat && c.toNat ≤ 90

/-- Is `c` an ASCII decimal digit? -/
def isAsciiDigit (c : Char) : Bool := 48 ≤ c.toNat && c.toNat ≤ 57

/-- Value of a bijective base-26 letter string (`"A"` ↦ 1, `"Z"` ↦ 26, `"AA"` ↦ 27). -/
def lettersVal (l : List Char) : Nat := l.foldl (fun a c => a * 26 + (c.toNat - 64)) 0

/-- Value of a decimal digit string. -/
def decDigitsVal (l : List Char) : Nat := l.foldl (fun a c => a * 10 + (c.toNat - 48)) 0

/-- Modelled from the spec: the repository source contains no `decode`; spec
section 8 posits an inverse `decode` with `decode(encode(row,col)) == (row,col)`
for the address format of section 4.5 (`<columnLetters><rowNumber>`, bijective
base-26 letters, 1-based decimal row). `decodeAddress` splits a maximal
non-empty prefix of uppercase letters from a non-empty all-digit suffix and
inverts the letter value and the 1-based row number. -/
def decodeAddress (s : List Char) : Option (Nat × Nat) :=
  let letters := s.takeWhile isUpperLetter
  let digits := s.dropWhile isUpperLetter
  if letters.isEmpty then none
  else if digits.isEmpty then none
  else if digits.all isAsciiDigit then
    let rowNum := decDigitsVal digits
    if rowNum = 0 then none else some (rowNum - 1, lettersVal letters - 1)
  else none

/-! ## Data model

Scalar spreadsheet cell values as they occur in the JS source (`any` cells):
`null`/`undefined` plus string, integral number and boolean scalars. -/

/-- A scalar cell value. -/
inductive CellValue where
  | vNull
  | vUndef
  | vStr (s : List Char)
  | vNum (i : Int)
  | vBool (b : Bool)
deriving DecidableEq

/-- JS `String(cell)` coercion. -/
def cellToString : CellValue → List Char
  | .vNull => lit "null"
  | .vUndef => lit "undefined"
  | .vStr s => s
  | .vNum i => intDecimal i
  | .vBool b => if b then lit "true" else lit "false"

/-- JS truthiness of a cell value (used by `cell || '(empty)'`). -/
def truthy : CellValue → Bool
  | .vNull => false
  | .vUndef => false
  | .vStr s => !s.isEmpty
  | .vBool b => b
  | .vNum i => decide (i ≠ 0)

/-- `RangeData` (excelService.ts): address, 2-D values, optional formulas. -/
structure RangeData where
  address : List Char
  values : List (List CellValue)
  formulas : Option (List (List (List Char))) := none
deriving DecidableEq

/-- `WorksheetInfo` (excelService.ts). -/
structure WorksheetInfo where
  name : List Char
  id : List Char
  isActive : Bool
deriving DecidableEq

/-- The fields of the `ExcelContext` snapshot (useExcelContext.ts) consumed by
the Preprocessor. -/
structure ExcelContext where
  workbookName : List Char
  worksheets : List WorksheetInfo
  activeWorksheet : List Char
  selectedRange : Option RangeData
  activeWorksheetData : Option RangeData
  isExcelReady : Bool
deriving DecidableEq

/-- The host spreadsheet interface used by the bridge and the preprocessor:
the `ExcelActions` record (useExcelContext.ts) together with
`excelService.getActiveWorksheetData` (called directly by `handleFindData`
and by the preprocessor). A rejected promise is an `Except.error` carrying
the thrown error's message. -/
structure ExcelHost where
  getRangeData : Option (List Char) → Option (List Char) → Except (List Char) RangeData
  setCellValue : Option (List Char) → CellValue → Option (List Char) → Except (List Char) Unit
  setRangeValues : Option (List Char) → Option (List (List CellValue)) → Option (List Char) →
    Except (List Char) Unit
  refreshContext : Except (List Char) Unit
  getSelectedRange : Except (List Char) (Option RangeData)
  createWorksheet : Option (List Char) → Except (List Char) Unit
  getActiveWorksheetData : Except (List Char) RangeData

/-- One issued host call, recorded in a trace so that "this handler performs no
host operation" is expressible. -/
inductive HostOp where
  | getRangeData (addr ws : Option (List Char))
  | setCellValue (addr : Option (List Char)) (v : CellValue) (ws : Option (List Char))
  | setRangeValues (addr : Option (List Char)) (vals : Option (List (List CellValue)))
      (ws : Option (List Char))
  | refreshContext
  | getSelectedRange
  | createWorksheet (n : Option (List Char))
  | getActiveWorksheetData
deriving DecidableEq

/-- `ExcelToolCall` (excelBridge.ts): an action tag plus the named parameters
the handlers destructure; a parameter absent from the JS object is `none`
(destructures to `undefined`). -/
structure ExcelToolCall where
  action : List Char
  range_address : Option (List Char) := none
  cell_address : Option (List Char) := none
  worksheet_name : Option (List Char) := none
  value : CellValue := .vUndef
  values : Option (List (List CellValue)) := none
  search_term : Option (List Char) := none
  format_type : Option (List Char) := none
  data_range : Option (List Char) := none
  chart_type : Option (List Char) := none
  chart_title : Option (List Char) := none
deriving DecidableEq

/-- One match produced by `findInData` (excelBridge.ts, lines 276-298).
The source field `match` is a reserved word in Lean and is embedded as
`matchHit`. -/
structure FindEntry where
  row : Nat
  column : Nat
  address : List Char
  value : CellValue
  matchHit : Bool
deriving DecidableEq

/-- The `data` payloads carried by successful `ExcelToolResult`s. -/
inductive ResultData where
  | readRange (address : List Char) (values : List (List CellValue))
      (formulas : Option (List (List (List Char)))) (summary : List Char)
  | message (m : List Char)
  | selected (m : List Char) (selectedRange : Option RangeData)
  | analyze (range : List Char) (rawData : RangeData) (m : List Char)
  | findData (searchTerm : List Char) (results : List FindEntry) (m : List Char)
deriving DecidableEq

/-- `ExcelToolResult` (excelBridge.ts). -/
structure ExcelToolResult where
  success : Bool
  data : Option ResultData := none
  error : Option (List Char) := none
deriving DecidableEq

/-- JS template-literal interpolation of a possibly-`undefined` string. -/
def optRender : Option (List Char) → List Char
  | some s => s
  | none => lit "undefined"

/-- The `${worksheet_name ? ` in worksheet "${worksheet_name}"` : ''}` suffix
used by several handler messages (an empty string is falsy in JS). -/
def wsSuffix : Option (List Char) → List Char
  | some s => if s.isEmpty then [] else lit " in worksheet \"" ++ s ++ lit "\""
  | none => []

/-! ## Tool-Call Bridge (excelBridge.ts)

Each handler returns the `Except`-level outcome of the `async` body (before
`executeToolCall`'s own `try`/`catch`) together with the trace of host calls
it issued. -/

/-- Inner cell loop of `findInData`: `row.forEach((cell, colIndex) => ...)`,
pushing an entry for every non-`null`/`undefined` cell whose lowercased
string rendering contains the (already lowercased) search term. -/
def findInDataCells (searchLower : List Char) (rowIndex : Nat) :
    Nat → List CellValue → List FindEntry
  | _, [] => []
  | colIndex, cell :: cells =>
    let rest := findInDataCells searchLower rowIndex (colIndex + 1) cells
    match cell with
    | .vNull => rest
    | .vUndef => rest
    | c =>
      let cellStr := (cellToString c).map Char.toLower
      if hasSub searchLower cellStr then
        { row := rowIndex + 1, column := colIndex + 1,
          address := indexToAddress rowIndex colIndex, value := c,
          matchHit := hasSub searchLower cellStr } :: rest
      else rest

/-- Outer row loop of `findInData`: `values.forEach((row, rowIndex) => ...)`. -/
def findInDataRows (searchLower : List Char) : Nat → List (List CellValue) → List FindEntry
  | _, [] => []
  | rowIndex, row :: rows =>
    findInDataCells searchLower rowIndex 0 row ++ findInDataRows searchLower (rowIndex + 1) rows

/-- `findInData(values, searchTerm)` (excelBridge.ts, lines 276-298). -/
def findInData (values : List (List CellValue)) (searchTerm : List Char) : List FindEntry :=
  findInDataRows (searchTerm.map Char.toLower) 0 values

/-- `handleReadRange` (excelBridge.ts, lines 76-89): destructures
`range_address`/`worksheet_name` without validation and forwards both to
`excelActions.getRangeData`. -/
def handleReadRange (h : ExcelHost) (tc : ExcelToolCall) :
    Except (List Char) ExcelToolResult × List HostOp :=
  let ops := [HostOp.getRangeData tc.range_address tc.worksheet_name]
  match h.getRangeData tc.range_address tc.worksheet_name with
  | .error e => (.error e, ops)
  | .ok d =>
    (.ok { success := true,
           data := some (.readRange d.address d.values d.formulas
             (lit "Read " ++ natDecimal d.values.length ++ lit " rows and " ++
              natDecimal (d.values.headD []).length ++ lit " columns from " ++ d.address)) },
     ops)

/-- `handleWriteCell` (excelBridge.ts, lines 91-101): no validation; forwards
the possibly-absent `cell_address` and `value` to `excelActions.setCellValue`. -/
def handleWriteCell (h : ExcelHost) (tc : ExcelToolCall) :
    Except (List Char) ExcelToolResult × List HostOp :=
  let ops := [HostOp.setCellValue tc.cell_address tc.value tc.worksheet_name]
  match h.setCellValue tc.cell_address tc.value tc.worksheet_name with
  | .error e => (.error e, ops)
  | .ok _ =>
    (.ok { success := true,
           data := some (.message
             (lit "Successfully wrote \"" ++ cellToString tc.value ++ lit "\" to cell " ++
              optRender tc.cell_address ++ wsSuffix tc.worksheet_name)) },
     ops)

/-- `handleWriteRange` (excelBridge.ts, lines 103-113). When `values` is absent
and the host call still resolves, building the success message evaluates
`values.length` on `undefined`, which throws a `TypeError` inside the handler. -/
def handleWriteRange (h : ExcelHost) (tc : ExcelToolCall) :
    Except (List Char) ExcelToolResult × List HostOp :=
  let ops := [HostOp.setRangeValues tc.range_address tc.values tc.worksheet_name]
  match h.setRangeValues tc.range_address tc.values tc.worksheet_name with
  | .error e => (.error e, ops)
  | .ok _ =>
    match tc.values with
    | none => (.error (lit "Cannot read properties of undefined (reading 'length')"), ops)
    | some vs =>
      (.ok { success := true,
             data := some (.message
               (lit "Successfully wrote " ++ natDecimal vs.length ++ lit " rows and " ++
                natDecimal (vs.headD []).length ++ lit " columns to range " ++
                optRender tc.range_address ++ wsSuffix tc.worksheet_name)) },
       ops)

/-- `handleGetWorkbookInfo` (excelBridge.ts, lines 115-125). -/
def handleGetWorkbookInfo (h : ExcelHost) :
    Except (List Char) ExcelToolResult × List HostOp :=
  let ops := [HostOp.refreshContext]
  match h.refreshContext with
  | .error e => (.error e, ops)
  | .ok _ =>
    (.ok { success := true,
           data := some (.message (lit "Workbook information refreshed and available in context")) },
     ops)

/-- `handleGetSelectedRange` (excelBridge.ts, lines 127-151). -/
def handleGetSelectedRange (h : ExcelHost) :
    Except (List Char) ExcelToolResult × List HostOp :=
  let ops := [HostOp.getSelectedRange]
  match h.getSelectedRange with
  | .error e => (.error e, ops)
  | .ok none =>
    (.ok { success := true,
           data := some (.selected (lit "No range is currently selected") none) }, ops)
  | .ok (some sr) =>
    (.ok { success := true,
           data := some (.selected (lit "Selected range: " ++ sr.address) (some sr)) }, ops)

/-- `handleCreateWorksheet` (excelBridge.ts, lines 153-163). -/
def handleCreateWorksheet (h : ExcelHost) (tc : ExcelToolCall) :
    Except (List Char) ExcelToolResult × List HostOp :=
  let ops := [HostOp.createWorksheet tc.worksheet_name]
  match h.createWorksheet tc.worksheet_name with
  | .error e => (.error e, ops)
  | .ok _ =>
    (.ok { success := true,
           data := some (.message
             (lit "Successfully created worksheet \"" ++ optRender tc.worksheet_name ++ lit "\"")) },
     ops)

/-- The selected-range fallback branch of `handleAnalyzeData` (excelBridge.ts,
lines 176-188): uses the current selection, or fails with a `success:false`
result when nothing is selected; host failures are converted by the handler's
inner `catch`. -/
def analyzeSelected (h : ExcelHost) : Except (List Char) ExcelToolResult × List HostOp :=
  let ops := [HostOp.getSelectedRange]
  match h.getSelectedRange with
  | .error e =>
    (.ok { success := false, error := some (lit "Failed to prepare data: " ++ e) }, ops)
  | .ok none =>
    (.ok { success := false,
           error := some (lit "No range specified and no range selected for analysis") }, ops)
  | .ok (some sr) =>
    (.ok { success := true,
           data := some (.analyze sr.address sr
             (lit "Data from " ++ sr.address ++ lit " ready for AI analysis")) }, ops)

/-- `handleAnalyzeData` (excelBridge.ts, lines 165-220): an inner `try`/`catch`
converts host failures into a `success:false` result of its own (so they never
reach `executeToolCall`'s catch); an empty-string `range_address` is falsy and
selects the selected-range branch. -/
def handleAnalyzeData (h : ExcelHost) (tc : ExcelToolCall) :
    Except (List Char) ExcelToolResult × List HostOp :=
  match tc.range_address with
  | some a =>
    if a.isEmpty then
      analyzeSelected h
    else
      let ops := [HostOp.getRangeData (some a) tc.worksheet_name]
      match h.getRangeData (some a) tc.worksheet_name with
      | .error e =>
        (.ok { success := false, error := some (lit "Failed to prepare data: " ++ e) }, ops)
      | .ok d =>
        (.ok { success := true,
               data := some (.analyze d.address d
                 (lit "Data from " ++ d.address ++ lit " ready for AI analysis")) }, ops)
  | none => analyzeSelected h

/-- `handleFindData` (excelBridge.ts, lines 222-245): reads the active
worksheet via `excelService.getActiveWorksheetData()` and searches with
`findInData`; its inner `try`/`catch` converts failures — including the
`TypeError` from `searchTerm.toLowerCase()` when `search_term` is absent —
into a `success:false` result. -/
def handleFindData (h : ExcelHost) (tc : ExcelToolCall) :
    Except (List Char) ExcelToolResult × List HostOp :=
  let ops := [HostOp.getActiveWorksheetData]
  match h.getActiveWorksheetData with
  | .error e =>
    (.ok { success := false,
           error := some (lit "Failed to search for \"" ++ optRender tc.search_term ++
             lit "\": " ++ e) }, ops)
  | .ok d =>
    match tc.search_term with
    | none =>
      (.ok { success := false,
             error := some (lit "Failed to search for \"undefined\": " ++
               lit "Cannot read properties of undefined (reading 'toLowerCase')") }, ops)
    | some term =>
      let results := findInData d.values term
      (.ok { success := true,
             data := some (.findData term results
               (lit "Found " ++ natDecimal results.length ++ lit " matches for \"" ++
                term ++ lit "\"")) }, ops)

/-- `handleFormatRange` (excelBridge.ts, lines 247-257): a placeholder that
issues no host call and always resolves with a `success:true` message. -/
def handleFormatRange (tc : ExcelToolCall) :
    Except (List Char) ExcelToolResult × List HostOp :=
  (.ok { success := true,
         data := some (.message
           (lit "Formatting \"" ++ optRender tc.format_type ++
            lit "\" would be applied to range " ++ optRender tc.range_address ++
            wsSuffix tc.worksheet_name ++
            lit ". (Note: Advanced formatting not yet implemented)")) },
   [])

/-- `handleCreateChart` (excelBridge.ts, lines 259-269): a placeholder that
issues no host call and always resolves with a `success:true` message. -/
def handleCreateChart (tc : ExcelToolCall) :
    Except (List Char) ExcelToolResult × List HostOp :=
  (.ok { success := true,
         data := some (.message
           (lit "Chart \"" ++ optRender tc.chart_title ++ lit "\" of type \"" ++
            optRender tc.chart_type ++ lit "\" would be created from range " ++
            optRender tc.data_range ++ wsSuffix tc.worksheet_name ++
            lit ". (Note: Chart creation not yet implemented)")) },
   [])

/-- The ten action tags of the `switch` in `executeToolCall`. -/
def supportedActions : List (List Char) :=
  [lit "read_range", lit "write_cell", lit "write_range", lit "get_workbook_info",
   lit "get_selected_range", lit "create_worksheet", lit "analyze_data",
   lit "find_data", lit "format_range", lit "create_chart"]

/-- The `switch (toolCall.action)` dispatch of `executeToolCall`
(excelBridge.ts, lines 31-67), before the surrounding `try`/`catch`. -/
def runToolCall (h : ExcelHost) (tc : ExcelToolCall) :
    Except (List Char) ExcelToolResult × List HostOp :=
  if tc.action = lit "read_range" then handleReadRange h tc
  else if tc.action = lit "write_cell" then handleWriteCell h tc
  else if tc.action = lit "write_range" then handleWriteRange h tc
  else if tc.action = lit "get_workbook_info" then handleGetWorkbookInfo h
  else if tc.action = lit "get_selected_range" then handleGetSelectedRange h
  else if tc.action = lit "create_worksheet" then handleCreateWorksheet h tc
  else if tc.action = lit "analyze_data" then handleAnalyzeData h tc
  else if tc.action = lit "find_data" then handleFindData h tc
  else if tc.action = lit "format_range" then handleFormatRange tc
  else if tc.action = lit "create_chart" then handleCreateChart tc
  else (.ok { success := false, error := some (lit "Unknown Excel action: " ++ tc.action) }, [])

/-- `executeToolCall` (excelBridge.ts, lines 29-74): the surrounding
`try`/`catch` converts any error escaping the dispatch into a
`success:false` result carrying the error's message. -/
def executeToolCall (h : ExcelHost) (tc : ExcelToolCall) : ExcelToolResult × List HostOp :=
  match runToolCall h tc with
  | (.ok r, ops) => (r, ops)
  | (.error e, ops) => ({ success := false, error := some e }, ops)

/-! ## Keyword Preprocessor (runtimeProvider.tsx, lines 13-162) -/

/-- The three keyword tokens scanned by `preprocessMessageContent`. -/
def kwSelected : List Char := lit "@selected_range"

/-- The `@active_sheet` keyword token. -/
def kwActive : List Char := lit "@active_sheet"

/-- The `@workbook_info` keyword token. -/
def kwWorkbook : List Char := lit "@workbook_info"

/-- Cell rendering used by both table formatters:
`${cellAddress}: ${cell || '(empty)'}` for each cell of a row, joined later
with `', '`. `colIndex` counts from the given start. -/
def renderRowCells (rowIndex : Nat) : Nat → List CellValue → List (List Char)
  | _, [] => []
  | colIndex, cell :: cells =>
    (indexToExcelAddress rowIndex colIndex ++ lit ": " ++
      (if truthy cell then cellToString cell else lit "(empty)"))
      :: renderRowCells rowIndex (colIndex + 1) cells

/-- One rendered table row: `Row ${rowIndex + 1}: ${cells}`. -/
def renderRow (rowIndex : Nat) (row : List CellValue) : List Char :=
  lit "Row " ++ natDecimal (rowIndex + 1) ++ lit ": " ++
    joinSep (lit ", ") (renderRowCells rowIndex 0 row)

/-- The `rows.map(...)` loop shared by `formatRangeDataForAI` and
`formatWorksheetDataForAI` (the source duplicates this code inline). -/
def renderRows : Nat → List (List CellValue) → List (List Char)
  | _, [] => []
  | rowIndex, row :: rows => renderRow rowIndex row :: renderRows (rowIndex + 1) rows

/-- `formatRangeDataForAI` (runtimeProvider.tsx, lines 93-107). -/
def formatRangeDataForAI (rd : RangeData) : List Char :=
  joinSep (lit "\n") (renderRows 0 rd.values)

/-- `formatWorksheetDataForAI` (runtimeProvider.tsx, lines 112-130): renders
`values.slice(0, maxRows)` and, when more rows exist, appends the footer
``` `\n... (showing first ${maxRows} of ${totalRows} rows)` ```. -/
def formatWorksheetDataForAI (wd : RangeData) (maxRows : Nat) : List Char :=
  let limitedRows := wd.values.take maxRows
  let totalRows := wd.values.length
  let footer :=
    if totalRows > maxRows then
      lit "\n... (showing first " ++ natDecimal maxRows ++ lit " of " ++
        natDecimal totalRows ++ lit " rows)"
    else []
  joinSep (lit "\n") (renderRows 0 limitedRows) ++ footer

/-- `formatWorkbookInfoForAI` (runtimeProvider.tsx, lines 135-147);
`workbookName || 'Unknown'` falls back on the empty (falsy) string. -/
def formatWorkbookInfoForAI (ctx : ExcelContext) : List Char :=
  let info :=
    [lit "Workbook: " ++ (if ctx.workbookName.isEmpty then lit "Unknown" else ctx.workbookName),
     lit "Active Worksheet: " ++
       (if ctx.activeWorksheet.isEmpty then lit "Unknown" else ctx.activeWorksheet),
     lit "Available Worksheets: " ++ joinSep (lit ", ") (ctx.worksheets.map (·.name))]
  let info :=
    match ctx.selectedRange with
    | some sr => info ++ [lit "Selected Range: " ++ sr.address]
    | none => info
  joinSep (lit "\n") info

/-- Third stage of `preprocessMessageContent`: the `@workbook_info` block
(lines 71-81); no host call, cannot throw. -/
def preprocessStage3 (c : List Char) (ctx : ExcelContext) : List Char :=
  if hasSub kwWorkbook c then replaceAll kwWorkbook (formatWorkbookInfoForAI ctx) c else c

/-- Second stage of `preprocessMessageContent`: the `@active_sheet` block
(lines 47-68). Its own inner `try`/`catch` replaces the keyword with a
"data unavailable" placeholder when `getActiveWorksheetData` rejects, so a
failure here never reaches the outer catch. -/
def preprocessStage2 (c : List Char) (ctx : ExcelContext) (h : ExcelHost) : List Char :=
  if hasSub kwActive c then
    match h.getActiveWorksheetData with
    | .ok wd =>
      preprocessStage3
        (replaceAll kwActive
          (lit "active worksheet \"" ++ ctx.activeWorksheet ++ lit "\":\n" ++
            formatWorksheetDataForAI wd 10) c) ctx
    | .error _ =>
      preprocessStage3
        (replaceAll kwActive
          (lit "active worksheet \"" ++ ctx.activeWorksheet ++ lit "\" (data unavailable)") c) ctx
  else preprocessStage3 c ctx

/-- `preprocessMessageContent` (runtimeProvider.tsx, lines 13-88). The three
keyword blocks run in sequence inside one outer `try`; the only call that can
reach the outer `catch` is `getRangeData` in the `@selected_range` block, in
which case the function logs and returns the current `processedContent`,
which at that point is still the original `content`. -/
def preprocessMessageContent (content : List Char) (ctx : ExcelContext) (h : ExcelHost) :
    List Char :=
  if hasSub kwSelected content then
    match ctx.selectedRange with
    | some sr =>
      match h.getRangeData (some sr.address) none with
      | .ok rangeData =>
        preprocessStage2
          (replaceAll kwSelected
            (lit "selected range " ++ rangeData.address ++ lit ":\n" ++
              formatRangeDataForAI rangeData) content) ctx h
      | .error _ => content
    | none =>
      preprocessStage2 (replaceAll kwSelected (lit "no range currently selected") content) ctx h
  else preprocessStage2 content ctx h

/-! ## Streaming Transport Adapter (runtimeProvider.tsx, lines 252-313)

The read loop of `MyModelAdapter.run`. A network read is modelled as the
characters the `TextDecoder` produced for it (`decode(value, {stream:true})`
re-assembles characters split across reads, so read boundaries fall between
characters); the loop state is the pending incomplete line `buffer` and the
accumulated text `fullText`. -/

/-- JS `String.prototype.split('\n')`. -/
def splitLines : List Char → List (List Char)
  | [] => [[]]
  | c :: rest =>
    if c = '\n' then [] :: splitLines rest
    else
      match splitLines rest with
      | [] => [[c]]
      | l :: ls => (c :: l) :: ls

/-- JS whitespace for `String.prototype.trim`. -/
def wsChar (c : Char) : Bool :=
  c = ' ' || c = '\t' || c = '\n' || c = '\r' || c = '\x0b' || c = '\x0c'

/-- Is `line.trim()` truthy, i.e. does the line contain a non-whitespace character? -/
def trimNonempty (l : List Char) : Bool := l.any (fun c => !wsChar c)

/-- Body of a JSON string literal after the opening quote (`JSON.parse` on the
`0:`-frame payloads, which are JSON-encoded strings): ordinary characters,
`\`-escapes, and a closing quote that may only be followed by whitespace. -/
def jsonStringChars : List Char → Option (List Char)
  | [] => none
  | '"' :: rest => if rest.all wsChar then some [] else none
  | '\\' :: esc =>
    match esc with
    | '"' :: rest => (jsonStringChars rest).map ('"' :: ·)
    | '\\' :: rest => (jsonStringChars rest).map ('\\' :: ·)
    | '/' :: rest => (jsonStringChars rest).map ('/' :: ·)
    | 'n' :: rest => (jsonStringChars rest).map ('\n' :: ·)
    | 't' :: rest => (jsonStringChars rest).map ('\t' :: ·)
    | 'r' :: rest => (jsonStringChars rest).map ('\r' :: ·)
    | 'b' :: rest => (jsonStringChars rest).map (Char.ofNat 8 :: ·)
    | 'f' :: rest => (jsonStringChars rest).map (Char.ofNat 12 :: ·)
    | _ => none
  | c :: rest => if c.toNat < 32 then none else (jsonStringChars rest).map (c :: ·)

/-- `JSON.parse` restricted to JSON string literals (the only payloads the
adapter feeds it); `none` models a thrown `SyntaxError`. -/
def parseJsonString (s : List Char) : Option (List Char) :=
  match s.dropWhile wsChar with
  | '"' :: rest => jsonStringChars rest
  | _ => none

/-- Processing of one complete line (lines 272-292): a non-blank line starting
with `0:` whose remainder parses as a JSON string contributes its payload;
every other line is skipped (malformed frames are logged and dropped). -/
def decodeFrame (line : List Char) : Option (List Char) :=
  if trimNonempty line then
    match line with
    | '0' :: ':' :: jsonStr => parseJsonString jsonStr
    | _ => none
  else none

/-- Runs the per-read loop body over a list of complete lines, returning the
final `fullText` and the cumulative snapshots yielded (one per decoded frame). -/
def processLines (fullText : List Char) : List (List Char) → List Char × List (List Char)
  | [] => (fullText, [])
  | line :: rest =>
    match decodeFrame line with
    | some chunk =>
      let newFull := fullText ++ chunk
      let (finalFull, yields) := processLines newFull rest
      (finalFull, newFull :: yields)
    | none => processLines fullText rest

/-- The read loop of `MyModelAdapter.run`: per read, append to `buffer`, split
on newlines, keep the (incomplete) last segment as the new buffer and process
the complete lines; at end of stream the remaining buffer is processed by the
same frame logic (lines 296-310). Returns the yielded cumulative snapshots. -/
def runAdapter (buffer fullText : List Char) : List (List Char) → List (List Char)
  | [] =>
    match decodeFrame buffer with
    | some chunk => [fullText ++ chunk]
    | none => []
  | read :: reads =>
    let ls := splitLines (buffer ++ read)
    let (newFull, yields) := processLines fullText ls.dropLast
    yields ++ runAdapter (ls.getLastD []) newFull reads

/-- Frame payloads decoded from a list of lines, in order. -/
def framePayloads (ls : List (List Char)) : List (List Char) :=
  ls.filterMap decodeFrame

/-- Cumulative concatenations: `cumulativeFrom acc [p₁, p₂, …] =
[acc ++ p₁, acc ++ p₁ ++ p₂, …]`. -/
def cumulativeFrom (acc : List Char) : List (List Char) → List (List Char)
  | [] => []
  | p :: ps => (acc ++ p) :: cumulativeFrom (acc ++ p) ps

/-! ## Selection-change handling (useExcelContext, App.tsx bundle, lines 308-347)

The `onSelectionChanged` handler is
`setTimeout(async () => { ...update selected range... }, 500)`: the timer
handle is not stored and `clearTimeout` is never called, so every event's
callback fires 500ms after that event. Events are modelled by their arrival
times (ms, sorted ascending). -/

/-- Callback firing times produced by the source handler: one uncancelled
timeout per selection-change event, 500ms after the event. -/
def selectionCallbackTimes (events : List Nat) : List Nat :=
  events.map (fun t => t + 500)

/-- Callback firing times of a genuine trailing-edge debounce with a 500ms
quiescence window (each new event cancels a pending timer): a callback fires
500ms after the last event of each burst. -/
def debouncedCallbackTimes : List Nat → List Nat
  | [] => []
  | [t] => [t + 500]
  | t₁ :: t₂ :: rest =>
    (if t₂ < t₁ + 500 then [] else [t₁ + 500]) ++ debouncedCallbackTimes (t₂ :: rest)

/-! ## Specification-side definitions used by claim statements -/

/-- Specification-side match predicate: a cell participates iff it is neither
`null` nor `undefined` and its lowercased string rendering contains the
lowercased search term as a substring. -/
def cellMatches (searchTerm : List Char) : CellValue → Bool
  | .vNull => false
  | .vUndef => false
  | c => hasSub (searchTerm.map Char.toLower) ((cellToString c).map Char.toLower)

/-- Specification-side entry for a matching cell at `(rowIndex, colIndex)`:
1-based row/column indices, the computed address, and the cell's value. -/
def mkFindEntry (rowIndex colIndex : Nat) (v : CellValue) : FindEntry :=
  { row := rowIndex + 1, column := colIndex + 1,
    address := indexToAddress rowIndex colIndex, value := v, matchHit := true }

/-- Specification-side result: one entry per matching cell, in row-major scan
order over the enumerated grid. -/
def rowMajorMatches (values : List (List CellValue)) (searchTerm : List Char) :
    List FindEntry :=
  values.enum.flatMap fun rp =>
    rp.2.enum.filterMap fun cp =>
      if cellMatches searchTerm cp.2 then some (mkFindEntry rp.1 cp.1 cp.2) else none

/-- Semantic join of two line splittings: `joinLast A B` is the splitting of a
concatenation whose left part split as `A` and right part split as `B` — the
last segment of `A` fuses with the first segment of `B`. -/
def joinLast : List (List Char) → List (List Char) → List (List Char)
  | [], ys => ys
  | [a], [] => [a]
  | [a], h :: t => (a ++ h) :: t
  | a :: b :: t, ys => a :: joinLast (b :: t) ys

/-! ## Concrete fixtures used by witnesses -/

/-- A small concrete range. -/
def mockRange : RangeData :=
  { address := lit "A1:B2",
    values := [[.vNum 1, .vNum 2], [.vNum 3, .vNum 4]] }

/-- A host on which every operation succeeds. -/
def mockHost : ExcelHost :=
  { getRangeData := fun _ _ => .ok mockRange,
    setCellValue := fun _ _ _ => .ok (),
    setRangeValues := fun _ _ _ => .ok (),
    refreshContext := .ok (),
    getSelectedRange := .ok none,
    createWorksheet := fun _ => .ok (),
    getActiveWorksheetData := .ok mockRange }

/-- A host on which every operation rejects with the message `"boom"`. -/
def failHost : ExcelHost :=
  { getRangeData := fun _ _ => .error (lit "boom"),
    setCellValue := fun _ _ _ => .error (lit "boom"),
    setRangeValues := fun _ _ _ => .error (lit "boom"),
    refreshContext := .error (lit "boom"),
    getSelectedRange := .error (lit "boom"),
    createWorksheet := fun _ => .error (lit "boom"),
    getActiveWorksheetData := .error (lit "boom") }

/-- An 11-row, 1-column range (exercises the truncation footer). -/
def elevenRowRange : RangeData :=
  { address := lit "A1:A11",
    values := (List.range 11).map (fun i => [CellValue.vNum (i + 1)]) }

/-- A host whose active-worksheet read returns `elevenRowRange`. -/
def sheetHost : ExcelHost :=
  { mockHost with getActiveWorksheetData := .ok elevenRowRange }

/-- A concrete context snapshot. -/
def mockCtx : ExcelContext :=
  { workbookName := lit "Book1",
    worksheets := [{ name := lit "Sheet1", id := lit "1", isActive := true }],
    activeWorksheet := lit "Sheet1",
    selectedRange := none,
    activeWorksheetData := none,
    isExcelReady := true }

/-- A concrete `format_range` tool call. -/
def formatTc : ExcelToolCall :=
  { action := lit "format_range", format_type := some (lit "bold"),
    range_address := some (lit "A1:B2"), worksheet_name := some (lit "Sheet1") }

/-- A concrete `create_chart` tool call. -/
def chartTc : ExcelToolCall :=
  { action := lit "create_chart", chart_title := some (lit "T"),
    chart_type := some (lit "bar"), data_range := some (lit "A1:B2") }

/-! ## Codec lemmas -/

/-- `Char.ofNat` round-trips on the letter codes produced by the codec loop. -/
theorem toNat_ofNat_65 {r : Nat} (h : r < 26) : (Char.ofNat (65 + r)).toNat = 65 + r := by
  interval_cases r <;> decide

/-- `Char.ofNat` round-trips on decimal digit codes. -/
theorem toNat_ofNat_48 {d : Nat} (h : d < 10) : (Char.ofNat (48 + d)).toNat = 48 + d := by
  interval_cases d <;> decide

/-- The codec loop's accumulator is a suffix: prepending to `acc` commutes with
running the loop on the empty accumulator. -/
theorem colNameAux_append (c : Nat) : ∀ acc, colNameAux c acc = colNameAux c [] ++ acc := by
  induction c using Nat.strong_induction_on with
  | _ c ih =>
    intro acc
    by_cases h : c < 26
    · conv_lhs => rw [colNameAux]
      conv_rhs => rw [colNameAux]
      simp [h]
    · have hlt : c / 26 - 1 < c := by
        have h1 : c / 26 ≤ c := Nat.div_le_self _ _
        have h2 : 0 < c / 26 := Nat.div_pos (by omega) (by omega)
        omega
      conv_lhs => rw [colNameAux]
      conv_rhs => rw [colNameAux]
      simp only [h, if_false]
      rw [ih _ hlt (Char.ofNat (65 + c % 26) :: acc),
        ih _ hlt (Char.ofNat (65 + c % 26) :: [])]
      simp

/-- Folding the letter value over a trailing letter. -/
theorem lettersVal_append_singleton (l : List Char) (c : Char) :
    lettersVal (l ++ [c]) = lettersVal l * 26 + (c.toNat - 64) := by
  simp [lettersVal, List.foldl_append]

/-- The column letters of `col` have bijective base-26 value `col + 1`. -/
theorem lettersVal_colName (c : Nat) : lettersVal (colNameAux c []) = c + 1 := by
  induction c using Nat.strong_induction_on with
  | _ c ih =>
    by_cases h : c < 26
    · rw [colNameAux]
      simp only [h, if_true]
      simp [lettersVal, toNat_ofNat_65 (Nat.mod_lt c (by omega) : c % 26 < 26)]
      omega
    · have h2 : 0 < c / 26 := Nat.div_pos (by omega) (by omega)
      have hlt : c / 26 - 1 < c := by
        have h1 : c / 26 ≤ c := Nat.div_le_self _ _
        omega
      rw [colNameAux]
      simp only [h, if_false]
      rw [colNameAux_append, lettersVal_append_singleton, ih _ hlt,
        toNat_ofNat_65 (Nat.mod_lt c (by omega) : c % 26 < 26)]
      have hdm : 26 * (c / 26) + c % 26 = c := Nat.div_add_mod c 26
      omega

/-- Every character the codec loop emits is an uppercase letter. -/
theorem colName_upper (c : Nat) : ∀ x ∈ colNameAux c [], isUpperLetter x = true := by
  induction c using Nat.strong_induction_on with
  | _ c ih =>
    have hm : c % 26 < 26 := Nat.mod_lt c (by omega)
    have hx : isUpperLetter (Char.ofNat (65 + c % 26)) = true := by
      simp [isUpperLetter, toNat_ofNat_65 hm]
      omega
    by_cases h : c < 26
    · rw [colNameAux]
      simp only [h, if_true]
      simpa using hx
    · have h2 : 0 < c / 26 := Nat.div_pos (by omega) (by omega)
      have hlt : c / 26 - 1 < c := by
        have h1 : c / 26 ≤ c := Nat.div_le_self _ _
        omega
      rw [colNameAux]
      simp only [h, if_false]
      rw [colNameAux_append]
      intro x hmem
      rcases List.mem_append.mp hmem with hmem | hmem
      · exact ih _ hlt x hmem
      · simp at hmem
        subst hmem
        exact hx

/-- The codec loop emits at least one letter. -/
theorem colName_ne_nil (c : Nat) : colNameAux c [] ≠ [] := by
  by_cases h : c < 26
  · rw [colNameAux]
    simp [h]
  · rw [colNameAux]
    simp only [h, if_false]
    rw [colNameAux_append]
    simp

/-- Every character of a decimal rendering is an ASCII digit. -/
theorem natDecimal_digits (n : Nat) : ∀ x ∈ natDecimal n, isAsciiDigit x = true := by
  induction n using Nat.strong_induction_on with
  | _ n ih =>
    have hdig : ∀ d : Nat, d < 10 → isAsciiDigit (Char.ofNat (48 + d)) = true := by
      intro d hd
      simp [isAsciiDigit, toNat_ofNat_48 hd]
      omega
    by_cases h : n < 10
    · rw [natDecimal]
      simp only [h, if_true]
      simpa using hdig n h
    · rw [natDecimal]
      simp only [h, if_false]
      intro x hmem
      rcases List.mem_append.mp hmem with hmem | hmem
      · exact ih _ (Nat.div_lt_self (by omega) (by omega)) x hmem
      · simp at hmem
        subst hmem
        exact hdig _ (Nat.mod_lt n (by omega))

/-- Decimal renderings are non-empty. -/
theorem natDecimal_ne_nil (n : Nat) : natDecimal n ≠ [] := by
  by_cases h : n < 10
  · rw [natDecimal]
    simp [h]
  · rw [natDecimal]
    simp [h]

/-- Reading the decimal digits back yields the rendered number. -/
theorem decDigitsVal_natDecimal (n : Nat) : decDigitsVal (natDecimal n) = n := by
  induction n using Nat.strong_induction_on with
  | _ n ih =>
    by_cases h : n < 10
    · rw [natDecimal]
      simp only [h, if_true]
      simp [decDigitsVal, toNat_ofNat_48 h]
    · rw [natDecimal]
      simp only [h, if_false]
      unfold decDigitsVal
      rw [List.foldl_append]
      have hrec := ih (n / 10) (Nat.div_lt_self (by omega) (by omega))
      unfold decDigitsVal at hrec
      simp [hrec, toNat_ofNat_48 (Nat.mod_lt n (by omega) : n % 10 < 10)]
      have hdm : 10 * (n / 10) + n % 10 = n := Nat.div_add_mod n 10
      omega

/-- An ASCII digit is not an uppercase letter. -/
theorem digit_not_upper {x : Char} (h : isAsciiDigit x = true) : isUpperLetter x = false := by
  simp [isAsciiDigit] at h
  simp [isUpperLetter]
  omega

/-- Splitting `takeWhile`/`dropWhile` at the first failing element. -/
theorem takeWhile_dropWhile_split (p : Char → Bool) :
    ∀ (A : List Char) (b : Char) (B : List Char), (∀ a ∈ A, p a = true) → p b = false →
      (A ++ b :: B).takeWhile p = A ∧ (A ++ b :: B).dropWhile p = b :: B := by
  intro A
  induction A with
  | nil =>
    intro b B _ hb
    simp [List.takeWhile_cons, List.dropWhile_cons, hb]
  | cons a A ih =>
    intro b B hA hb
    have ha : p a = true := hA a (by simp)
    have hih := ih b B (fun x hx => hA x (by simp [hx])) hb
    simp [List.takeWhile_cons, List.dropWhile_cons, ha, hih.1, hih.2]

/-- The decode round-trip on the encoder's output, for non-negative rows. -/
theorem decode_encode (row col : Nat) :
    decodeAddress (indexToAddress row col) = some (row, col) := by
  have hneg : ¬ ((row : Int) + 1 < 0) := by omega
  have htn : ((row : Int) + 1).toNat = row + 1 := by omega
  rw [indexToAddress, intDecimal]
  simp only [hneg, if_false, htn]
  rcases hnd : natDecimal (row + 1) with _ | ⟨d, ds⟩
  · exact absurd hnd (natDecimal_ne_nil (row + 1))
  · have hdigits : ∀ x ∈ d :: ds, isAsciiDigit x = true := by
      rw [← hnd]
      exact natDecimal_digits (row + 1)
    have hd : isUpperLetter d = false := digit_not_upper (hdigits d (by simp))
    have hsplit := takeWhile_dropWhile_split isUpperLetter (colNameAux col []) d ds
      (colName_upper col) hd
    rw [decodeAddress]
    simp only [hsplit.1, hsplit.2]
    have hletne : ¬ (colNameAux col []).isEmpty := by
      simp [List.isEmpty_iff]
      exact colName_ne_nil col
    have hval : decDigitsVal (d :: ds) = row + 1 := by
      rw [← hnd]
      exact decDigitsVal_natDecimal (row + 1)
    simp only [hletne, Bool.false_eq_true, if_false]
    simp only [List.isEmpty_cons, if_false]
    have hall : (d :: ds).all isAsciiDigit = true := by
      rw [List.all_eq_true]
      exact hdigits
    rw [hall]
    simp only [if_true, hval]
    simp [lettersVal_colName col]

/-- The duplicated loop in `indexToExcelAddress` agrees with the bridge's loop. -/
theorem excelColNameAux_eq (c : Nat) : ∀ acc, excelColNameAux c acc = colNameAux c acc := by
  induction c using Nat.strong_induction_on with
  | _ c ih =>
    intro acc
    by_cases h : c < 26
    · rw [excelColNameAux, colNameAux]
      simp [h]
    · have h2 : 0 < c / 26 := Nat.div_pos (by omega) (by omega)
      have hlt : c / 26 - 1 < c := by
        have h1 : c / 26 ≤ c := Nat.div_le_self _ _
        omega
      rw [excelColNameAux, colNameAux]
      simp only [h, if_false]
      exact ih _ hlt _

/-! ## Claim C2 and C10 -/

/-- C2: for every pair of non-negative integers `(row, col)` the address codec
returns the bijective base-26 letter rendering of `col` concatenated with the
decimal rendering of `row + 1`: `encode(0,0)="A1"`, `encode(0,26)="AA1"`,
`encode(5,1)="B6"`; `encode` is injective, and the (spec-modelled) inverse
satisfies `decode(encode(row,col)) = (row,col)` for all `(row, col) ≥ 0`. -/
theorem claim_C2_addressCodec :
    indexToAddress 0 0 = lit "A1" ∧
    indexToAddress 0 26 = lit "AA1" ∧
    indexToAddress 5 1 = lit "B6" ∧
    (∀ row col : Nat, decodeAddress (indexToAddress row col) = some (row, col)) ∧
    (∀ r₁ c₁ r₂ c₂ : Nat,
      indexToAddress r₁ c₁ = indexToAddress r₂ c₂ → r₁ = r₂ ∧ c₁ = c₂) := by
  refine ⟨?_, ?_, ?_, ?_, ?_⟩
  · simp [indexToAddress, colNameAux, intDecimal, natDecimal, lit]
  · simp [indexToAddress, colNameAux, intDecimal, natDecimal, lit]
  · simp [indexToAddress, colNameAux, intDecimal, natDecimal, lit]
  · exact decode_encode
  · intro r₁ c₁ r₂ c₂ h
    have h2 := decode_encode r₂ c₂
    rw [← h, decode_encode r₁ c₁] at h2
    simp at h2
    exact ⟨h2.1, h2.2⟩

/-- C2 witness: the universally quantified parts of `claim_C2_addressCodec`
instantiated at `(row, col) = (3, 27)`, with the injectivity hypothesis
discharged by `rfl`. -/
theorem claim_C2_addressCodec_witness :
    decodeAddress (indexToAddress 3 27) = some (3, 27) ∧ (3 = 3 ∧ 27 = 27) :=
  ⟨claim_C2_addressCodec.2.2.2.1 3 27,
   claim_C2_addressCodec.2.2.2.2 3 27 3 27 rfl⟩

/-- C10: the two address-codec implementations — `indexToAddress` in the
Tool-Call Bridge and `indexToExcelAddress` in the Preprocessor — are
extensionally equal: for every integer `row` and every `col ≥ 0` they return
the same string. -/
theorem claim_C10_codecs_agree :
    ∀ (row : Int) (col : Nat), indexToAddress row col = indexToExcelAddress row col := by
  intro row col
  rw [indexToAddress, indexToExcelAddress, excelColNameAux_eq]

/-! ## Claims C3, C4, C9 -/

/-- C3: `executeToolCall` always returns a plain `ExcelToolResult` (its type in
this embedding is total — no exception escapes the bridge): an action tag
outside the ten supported tags yields `success:false` with an error naming the
unknown action (and issues no host call), and any error thrown inside the
dispatch or a host call is caught and converted into `success:false` carrying
the underlying message. -/
theorem claim_C3_bridge_never_throws :
    (∀ (h : ExcelHost) (tc : ExcelToolCall), tc.action ∉ supportedActions →
      executeToolCall h tc =
        ({ success := false, data := none,
           error := some (lit "Unknown Excel action: " ++ tc.action) }, [])) ∧
    (∀ (h : ExcelHost) (tc : ExcelToolCall) (e : List Char) (ops : List HostOp),
      runToolCall h tc = (.error e, ops) →
      executeToolCall h tc = ({ success := false, data := none, error := some e }, ops)) := by
  constructor
  · intro h tc hna
    simp only [supportedActions, List.mem_cons, List.not_mem_nil, or_false, not_or] at hna
    obtain ⟨h1, h2, h3, h4, h5, h6, h7, h8, h9, h10⟩ := hna
    simp [executeToolCall, runToolCall, h1, h2, h3, h4, h5, h6, h7, h8, h9, h10]
  · intro h tc e ops hrun
    simp [executeToolCall, hrun]

/-- C3 witness: an unknown tag on a fully healthy host, and a `read_range`
whose host call rejects with `"boom"`. -/
theorem claim_C3_bridge_never_throws_witness :
    executeToolCall mockHost { action := lit "bogus" } =
      ({ success := false, data := none,
         error := some (lit "Unknown Excel action: " ++ lit "bogus") }, []) ∧
    executeToolCall failHost { action := lit "read_range" } =
      ({ success := false, data := none, error := some (lit "boom") },
       [HostOp.getRangeData none none]) :=
  ⟨claim_C3_bridge_never_throws.1 mockHost { action := lit "bogus" } (by decide),
   claim_C3_bridge_never_throws.2 failHost { action := lit "read_range" }
     (lit "boom") [HostOp.getRangeData none none] rfl⟩

/-- C4 counterexample: `read_range` invoked with `range_address` absent, on a
host whose `getRangeData` accepts the absent address: the bridge contains no
parameter validation, so the call succeeds and `executeToolCall` returns
`success:true` — not `success:false` with an error describing the missing
field, as the claim states. -/
theorem claim_C4_counterexample :
    (executeToolCall mockHost { action := lit "read_range" }).1.success = true := rfl

/-- C4 (amended): the supported handlers perform no presence-validation of
required parameters. A handler invoked with a required parameter absent
forwards the absent value (`none`) to its host call — visible in the recorded
trace — and the host call's outcome alone determines the result: the bridge
returns `success:false` exactly when the host call rejects, carrying the
host's own error message (which need not describe the missing field). -/
theorem claim_C4_no_validation :
    (∀ (h : ExcelHost) (e : List Char) (hws : Option (List Char)),
      h.getRangeData none hws = .error e →
      executeToolCall h { action := lit "read_range", worksheet_name := hws } =
        ({ success := false, data := none, error := some e },
         [HostOp.getRangeData none hws])) ∧
    (∀ (h : ExcelHost) (hws : Option (List Char)) (d : RangeData),
      h.getRangeData none hws = .ok d →
      (executeToolCall h { action := lit "read_range", worksheet_name := hws }).1.success
        = true) ∧
    (∀ (h : ExcelHost) (v : CellValue) (e : List Char) (hws : Option (List Char)),
      h.setCellValue none v hws = .error e →
      executeToolCall h { action := lit "write_cell", worksheet_name := hws, value := v } =
        ({ success := false, data := none, error := some e },
         [HostOp.setCellValue none v hws])) := by
  refine ⟨?_, ?_, ?_⟩
  · intro h e hws herr
    simp [executeToolCall, runToolCall, handleReadRange, herr]
  · intro h hws d hok
    simp [executeToolCall, runToolCall, handleReadRange, hok]
  · intro h v e hws herr
    have hne : lit "write_cell" ≠ lit "read_range" := by decide
    simp [executeToolCall, runToolCall, handleWriteCell, herr, hne]

/-- C4 witness: the amended statement at the all-rejecting host with a named
worksheet, and at the all-accepting host. -/
theorem claim_C4_no_validation_witness :
    executeToolCall failHost { action := lit "read_range", worksheet_name := some (lit "S") } =
      ({ success := false, data := none, error := some (lit "boom") },
       [HostOp.getRangeData none (some (lit "S"))]) ∧
    (executeToolCall mockHost
      { action := lit "read_range", worksheet_name := some (lit "S") }).1.success = true ∧
    executeToolCall failHost
        { action := lit "write_cell", worksheet_name := none, value := .vNum 7 } =
      ({ success := false, data := none, error := some (lit "boom") },
       [HostOp.setCellValue none (.vNum 7) none]) :=
  ⟨claim_C4_no_validation.1 failHost (lit "boom") (some (lit "S")) rfl,
   claim_C4_no_validation.2.1 mockHost (some (lit "S")) mockRange rfl,
   claim_C4_no_validation.2.2 failHost (.vNum 7) (lit "boom") none rfl⟩

/-- C9: every `format_range` and every `create_chart` tool call returns
`success:true` with the descriptive placeholder message and issues no host
call at all (the recorded host-operation trace is empty), for every host. -/
theorem claim_C9_placeholder_results :
    (∀ (h : ExcelHost) (tc : ExcelToolCall), tc.action = lit "format_range" →
      executeToolCall h tc =
        ({ success := true,
           data := some (.message
             (lit "Formatting \"" ++ optRender tc.format_type ++
              lit "\" would be applied to range " ++ optRender tc.range_address ++
              wsSuffix tc.worksheet_name ++
              lit ". (Note: Advanced formatting not yet implemented)")),
           error := none }, [])) ∧
    (∀ (h : ExcelHost) (tc : ExcelToolCall), tc.action = lit "create_chart" →
      executeToolCall h tc =
        ({ success := true,
           data := some (.message
             (lit "Chart \"" ++ optRender tc.chart_title ++ lit "\" of type \"" ++
              optRender tc.chart_type ++ lit "\" would be created from range " ++
              optRender tc.data_range ++ wsSuffix tc.worksheet_name ++
              lit ". (Note: Chart creation not yet implemented)")),
           error := none }, [])) := by
  constructor
  · rintro h ⟨action, ra, ca, wn, v, vs, st, ft, dr, ct, ctt⟩ htc
    subst htc
    rfl
  · rintro h ⟨action, ra, ca, wn, v, vs, st, ft, dr, ct, ctt⟩ htc
    subst htc
    rfl

/-- C9 witness: the placeholder results at concrete tool calls on the
all-rejecting host (showing the host is never consulted). -/
theorem claim_C9_placeholder_results_witness :
    executeToolCall failHost formatTc =
      ({ success := true,
         data := some (.message
           (lit "Formatting \"" ++ optRender formatTc.format_type ++
            lit "\" would be applied to range " ++ optRender formatTc.range_address ++
            wsSuffix formatTc.worksheet_name ++
            lit ". (Note: Advanced formatting not yet implemented)")),
         error := none }, []) ∧
    executeToolCall failHost chartTc =
      ({ success := true,
         data := some (.message
           (lit "Chart \"" ++ optRender chartTc.chart_title ++ lit "\" of type \"" ++
            optRender chartTc.chart_type ++ lit "\" would be created from range " ++
            optRender chartTc.data_range ++ wsSuffix chartTc.worksheet_name ++
            lit ". (Note: Chart creation not yet implemented)")),
         error := none }, []) :=
  ⟨claim_C9_placeholder_results.1 failHost formatTc rfl,
   claim_C9_placeholder_results.2 failHost chartTc rfl⟩

/-! ## Claim C5 -/

/-- The inner cell loop agrees with filtering the enumerated row. -/
theorem findInDataCells_eq (searchTerm : List Char) (rowIndex : Nat) :
    ∀ (row : List CellValue) (colIndex : Nat),
      findInDataCells (searchTerm.map Char.toLower) rowIndex colIndex row =
        (row.enumFrom colIndex).filterMap fun cp =>
          if cellMatches searchTerm cp.2 then some (mkFindEntry rowIndex cp.1 cp.2) else none := by
  intro row
  induction row with
  | nil => intro colIndex; simp [findInDataCells, List.enumFrom]
  | cons cell cells ih =>
    intro colIndex
    rcases cell with _ | _ | s | i | b <;>
      simp only [findInDataCells, List.enumFrom, List.filterMap_cons, cellMatches, mkFindEntry,
        ih (colIndex + 1)] <;>
      split <;>
      simp_all [cellMatches, mkFindEntry]

/-- The outer row loop agrees with flat-mapping the enumerated rows. -/
theorem findInDataRows_eq (searchTerm : List Char) :
    ∀ (rows : List (List CellValue)) (rowIndex : Nat),
      findInDataRows (searchTerm.map Char.toLower) rowIndex rows =
        (rows.enumFrom rowIndex).flatMap fun rp =>
          rp.2.enum.filterMap fun cp =>
            if cellMatches searchTerm cp.2 then some (mkFindEntry rp.1 cp.1 cp.2) else none := by
  intro rows
  induction rows with
  | nil => intro rowIndex; simp [findInDataRows, List.enumFrom]
  | cons row rows ih =>
    intro rowIndex
    simp only [findInDataRows, List.enumFrom, List.flatMap_cons, ih (rowIndex + 1)]
    congr 1
    rw [findInDataCells_eq]
    rfl

/-- C5: `findInData` returns, in row-major scan order, one entry for every
cell whose non-`null`/`undefined` value case-insensitively contains the search
term as a substring, each entry carrying the computed address, the 1-based
row/column indices and the cell's value; on the grid
`[["foo","bar"],["baz","foo"]]` with term `"foo"` it returns exactly the
matches at `A1` and `B2`, in that order. -/
theorem claim_C5_findInData :
    (∀ (values : List (List CellValue)) (searchTerm : List Char),
      findInData values searchTerm = rowMajorMatches values searchTerm) ∧
    findInData [[.vStr (lit "foo"), .vStr (lit "bar")], [.vStr (lit "baz"), .vStr (lit "foo")]]
        (lit "foo") =
      [{ row := 1, column := 1, address := lit "A1", value := .vStr (lit "foo"),
         matchHit := true },
       { row := 2, column := 2, address := lit "B2", value := .vStr (lit "foo"),
         matchHit := true }] := by
  constructor
  · intro values searchTerm
    rw [findInData, rowMajorMatches, findInDataRows_eq]
    rfl
  · have hA1 : indexToAddress (0 : Int) 0 = lit "A1" := by
      simp [indexToAddress, colNameAux, intDecimal, natDecimal, lit]
    have hB2 : indexToAddress (1 : Int) 1 = lit "B2" := by
      simp [indexToAddress, colNameAux, intDecimal, natDecimal, lit]
    simp only [findInData, findInDataRows, findInDataCells, cellToString]
    simp +decide [hA1, hB2]

/-! ## Claims C6 and C7 -/

/-- C6: for every input containing none of the keyword tokens
`@selected_range`, `@active_sheet`, `@workbook_info`, and for every context
snapshot and host, the preprocessor returns the input unchanged. (Its type in
this embedding is total — every host failure is caught inside, so it always
returns a string.) -/
theorem claim_C6_preprocessor_identity :
    ∀ (content : List Char) (ctx : ExcelContext) (h : ExcelHost),
      hasSub kwSelected content = false → hasSub kwActive content = false →
      hasSub kwWorkbook content = false →
      preprocessMessageContent content ctx h = content := by
  intro content ctx h h1 h2 h3
  rw [preprocessMessageContent, if_neg (by simp [h1])]
  rw [preprocessStage2, if_neg (by simp [h2])]
  rw [preprocessStage3, if_neg (by simp [h3])]

/-- C6 witness: a keyword-free message passes through unchanged. -/
theorem claim_C6_preprocessor_identity_witness :
    preprocessMessageContent (lit "hello sheet") mockCtx mockHost = lit "hello sheet" :=
  claim_C6_preprocessor_identity (lit "hello sheet") mockCtx mockHost
    (by decide) (by decide) (by decide)

/-- C7: expanding `@active_sheet` replaces every occurrence with
`active worksheet "<name>":\n` followed by the rendered table of the first 10
rows of the active-worksheet grid; the rendering produces
`Row <n>: <addr>: <value>, …` lines joined by newlines and, when the grid has
more than 10 rows, appends the truncation footer
`\n... (showing first 10 of <total> rows)`; when the worksheet data cannot be
fetched the keyword is replaced by a placeholder noting the data is
unavailable rather than failing. -/
theorem claim_C7_active_sheet_expansion :
    (∀ (ctx : ExcelContext) (h : ExcelHost) (wd : RangeData) (content : List Char),
      h.getActiveWorksheetData = .ok wd →
      hasSub kwSelected content = false →
      hasSub kwWorkbook (replaceAll kwActive
        (lit "active worksheet \"" ++ ctx.activeWorksheet ++ lit "\":\n" ++
          formatWorksheetDataForAI wd 10) content) = false →
      preprocessMessageContent content ctx h =
        (if hasSub kwActive content then
          replaceAll kwActive
            (lit "active worksheet \"" ++ ctx.activeWorksheet ++ lit "\":\n" ++
              formatWorksheetDataForAI wd 10) content
         else preprocessStage3 content ctx)) ∧
    (∀ (ctx : ExcelContext) (h : ExcelHost) (e content : List Char),
      h.getActiveWorksheetData = .error e →
      hasSub kwSelected content = false →
      hasSub kwActive content = true →
      hasSub kwWorkbook (replaceAll kwActive
        (lit "active worksheet \"" ++ ctx.activeWorksheet ++ lit "\" (data unavailable)")
        content) = false →
      preprocessMessageContent content ctx h =
        replaceAll kwActive
          (lit "active worksheet \"" ++ ctx.activeWorksheet ++ lit "\" (data unavailable)")
          content) ∧
    (∀ wd : RangeData, 10 < wd.values.length →
      formatWorksheetDataForAI wd 10 =
        joinSep (lit "\n") (renderRows 0 (wd.values.take 10)) ++
          (lit "\n... (showing first 10 of " ++ natDecimal wd.values.length ++
            lit " rows)")) ∧
    (∀ wd : RangeData, wd.values.length ≤ 10 →
      formatWorksheetDataForAI wd 10 = joinSep (lit "\n") (renderRows 0 wd.values)) := by
  refine ⟨?_, ?_, ?_, ?_⟩
  · intro ctx h wd content hok h1 hwb
    rw [preprocessMessageContent, if_neg (by simp [h1])]
    by_cases hact : hasSub kwActive content = true
    · rw [preprocessStage2, if_pos (by simp [hact])]
      simp only [hok]
      rw [preprocessStage3, if_neg (by simpa using hwb), if_pos hact]
    · rw [preprocessStage2, if_neg (by simpa using hact), if_neg (by simpa using hact)]
  · intro ctx h e content herr h1 h2 hwb
    rw [preprocessMessageContent, if_neg (by simp [h1])]
    rw [preprocessStage2, if_pos (by simp [h2])]
    simp only [herr]
    rw [preprocessStage3, if_neg (by simpa using hwb)]
  · intro wd h10
    rw [formatWorksheetDataForAI]
    simp only [h10, gt_iff_lt, if_pos]
    have h10d : natDecimal 10 = lit "10" := by simp [natDecimal, lit]
    simp [h10d, lit, List.append_assoc]
  · intro wd hle
    rw [formatWorksheetDataForAI]
    simp [Nat.not_lt.mpr hle, List.take_of_length_le hle]

/-- C7 witness: the three interesting branches exercised concretely — a
successful fetch of an 11-row grid (truncation footer present), a failed
fetch (placeholder), and the footer/no-footer shapes. -/
theorem claim_C7_active_sheet_expansion_witness :
    preprocessMessageContent (lit "@active_sheet") mockCtx sheetHost =
      (if hasSub kwActive (lit "@active_sheet") then
        replaceAll kwActive
          (lit "active worksheet \"" ++ mockCtx.activeWorksheet ++ lit "\":\n" ++
            formatWorksheetDataForAI elevenRowRange 10) (lit "@active_sheet")
       else preprocessStage3 (lit "@active_sheet") mockCtx) ∧
    preprocessMessageContent (lit "@active_sheet") mockCtx failHost =
      replaceAll kwActive
        (lit "active worksheet \"" ++ mockCtx.activeWorksheet ++ lit "\" (data unavailable)")
        (lit "@active_sheet") ∧
    formatWorksheetDataForAI elevenRowRange 10 =
      joinSep (lit "\n") (renderRows 0 (elevenRowRange.values.take 10)) ++
        (lit "\n... (showing first 10 of " ++ natDecimal elevenRowRange.values.length ++
          lit " rows)") ∧
    formatWorksheetDataForAI mockRange 10 =
      joinSep (lit "\n") (renderRows 0 mockRange.values) :=
  ⟨claim_C7_active_sheet_expansion.1 mockCtx sheetHost elevenRowRange (lit "@active_sheet")
      rfl (by decide)
      (by simp +decide [replaceAll, replaceAllFrom, formatWorksheetDataForAI, renderRows,
        renderRow, renderRowCells, joinSep, natDecimal, excelColNameAux, indexToExcelAddress,
        intDecimal, cellToString, truthy, elevenRowRange, hasSub, startsWithL, kwActive,
        kwWorkbook, mockCtx, lit]),
   claim_C7_active_sheet_expansion.2.1 mockCtx failHost (lit "boom") (lit "@active_sheet")
      rfl (by decide) (by decide)
      (by simp +decide [replaceAll, replaceAllFrom, hasSub, startsWithL, kwActive,
        kwWorkbook, mockCtx, lit]),
   claim_C7_active_sheet_expansion.2.2.1 elevenRowRange (by decide),
   claim_C7_active_sheet_expansion.2.2.2 mockRange (by decide)⟩

/-! ## Claim C1 -/

/-- `splitLines` never returns the empty list. -/
theorem splitLines_ne_nil (z : List Char) : splitLines z ≠ [] := by
  induction z with
  | nil => simp [splitLines]
  | cons c rest ih =>
    rw [splitLines]
    by_cases h : c = '\n'
    · simp [h]
    · simp only [h, if_false]
      rcases hs : splitLines rest with _ | ⟨l, ls⟩
      · simp
      · simp

/-- No segment produced by `splitLines` contains a newline. -/
theorem splitLines_no_newline (z : List Char) : ∀ l ∈ splitLines z, '\n' ∉ l := by
  induction z with
  | nil => simp [splitLines]
  | cons c rest ih =>
    rw [splitLines]
    by_cases h : c = '\n'
    · simp only [h, if_pos rfl]
      intro l hl
      rcases List.mem_cons.mp hl with rfl | hl
      · simp
      · exact ih l hl
    · simp only [h, if_false]
      rcases hs : splitLines rest with _ | ⟨l, ls⟩
      · exact absurd hs (splitLines_ne_nil rest)
      · intro m hm
        rcases List.mem_cons.mp hm with rfl | hm
        · intro hmem
          rcases List.mem_cons.mp hmem with rfl | hmem
          · exact h rfl
          · exact ih l (by rw [hs]; simp) hmem
        · exact ih m (by rw [hs]; simp [hm])

/-- A newline-free string splits as a single segment. -/
theorem splitLines_of_no_newline (x : List Char) (hx : '\n' ∉ x) : splitLines x = [x] := by
  induction x with
  | nil => rfl
  | cons c rest ih =>
    have hc : ¬ c = '\n' := fun h => hx (by simp [h])
    rw [splitLines]
    simp only [hc, if_false]
    rw [ih (fun h => hx (by simp [h]))]

/-- `splitLines` of a concatenation is the `joinLast` of the two splittings. -/
theorem splitLines_append (x y : List Char) :
    splitLines (x ++ y) = joinLast (splitLines x) (splitLines y) := by
  induction x with
  | nil =>
    rcases hy : splitLines y with _ | ⟨h, t⟩
    · exact absurd hy (splitLines_ne_nil y)
    · simp [splitLines, joinLast, hy]
  | cons c rest ih =>
    by_cases hc : c = '\n'
    · subst hc
      rw [List.cons_append, splitLines, if_pos rfl, ih]
      conv_rhs => rw [splitLines, if_pos rfl]
      rcases hs : splitLines rest with _ | ⟨l, ls⟩
      · exact absurd hs (splitLines_ne_nil rest)
      · rw [joinLast]
    · rw [List.cons_append, splitLines]
      simp only [hc, if_false]
      rw [ih]
      conv_rhs => rw [splitLines]
      simp only [hc, if_false]
      rcases hs : splitLines rest with _ | ⟨l, ls⟩
      · exact absurd hs (splitLines_ne_nil rest)
      · rcases ls with _ | ⟨l₂, ls⟩
        · rcases hy : splitLines y with _ | ⟨hh, tt⟩
          · exact absurd hy (splitLines_ne_nil y)
          · simp [joinLast]
        · simp [joinLast]

/-- `getLastD` of a non-empty list ignores the default. -/
theorem getLastD_cons_irrel (x : List Char) (l : List (List Char)) (a b : List Char) :
    (x :: l).getLastD a = (x :: l).getLastD b := by
  rw [List.getLastD_cons, List.getLastD_cons]

/-- The last segment is a member. -/
theorem getLastD_mem (l : List (List Char)) (d : List Char) (h : l ≠ []) :
    l.getLastD d ∈ l := by
  induction l generalizing d with
  | nil => exact absurd rfl h
  | cons x xs ih =>
    rcases xs with _ | ⟨y, ys⟩
    · simp [List.getLastD_cons]
    · rw [List.getLastD_cons]
      exact List.mem_cons.mpr (Or.inr (ih x (by simp)))

/-- `joinLast` splits into the left list's init and a join on its last segment. -/
theorem joinLast_eq_dropLast (ls zs : List (List Char)) (h : ls ≠ []) :
    joinLast ls zs = ls.dropLast ++ joinLast [ls.getLastD []] zs := by
  induction ls with
  | nil => exact absurd rfl h
  | cons a rest ih =>
    rcases rest with _ | ⟨b, t⟩
    · simp [List.getLastD_cons]
    · rw [joinLast, ih (by simp)]
      simp [List.getLastD_cons, List.dropLast_cons₂]

/-- Joining on the right of a singleton newline-free buffer is splitting the
buffer prepended. -/
theorem joinLast_singleton (b z : List Char) (hb : '\n' ∉ b) :
    joinLast [b] (splitLines z) = splitLines (b ++ z) := by
  rw [splitLines_append, splitLines_of_no_newline b hb]

/-- `processLines` yields one cumulative snapshot per decoded frame and
accumulates exactly the concatenation of the decoded payloads. -/
theorem processLines_eq (lines : List (List Char)) :
    ∀ fullText : List Char,
      processLines fullText lines =
        (fullText ++ (framePayloads lines).flatten,
         cumulativeFrom fullText (framePayloads lines)) := by
  induction lines with
  | nil => intro fullText; simp [processLines, framePayloads, cumulativeFrom]
  | cons line rest ih =>
    intro fullText
    rw [processLines]
    rcases hdf : decodeFrame line with _ | chunk
    · simp only [framePayloads, List.filterMap_cons, hdf]
      exact ih fullText
    · simp only [framePayloads, List.filterMap_cons, hdf]
      rw [ih (fullText ++ chunk)]
      simp [cumulativeFrom, framePayloads, List.append_assoc]

/-- Cumulative snapshots of concatenated payload lists decompose. -/
theorem cumulativeFrom_append (ps qs : List (List Char)) :
    ∀ acc : List Char,
      cumulativeFrom acc (ps ++ qs) =
        cumulativeFrom acc ps ++ cumulativeFrom (acc ++ ps.flatten) qs := by
  induction ps with
  | nil => intro acc; simp [cumulativeFrom]
  | cons p ps ih =>
    intro acc
    rw [List.cons_append, cumulativeFrom, cumulativeFrom, ih (acc ++ p)]
    simp [List.append_assoc]

/-- The read loop, started on any newline-free pending buffer, yields exactly
the cumulative concatenations of the frame payloads decoded from the line
splitting of the entire remaining character stream. -/
theorem runAdapter_eq (reads : List (List Char)) :
    ∀ (buffer fullText : List Char), '\n' ∉ buffer →
      runAdapter buffer fullText reads =
        cumulativeFrom fullText (framePayloads (splitLines (buffer ++ reads.flatten))) := by
  induction reads with
  | nil =>
    intro buffer fullText hbuf
    rw [runAdapter]
    rw [List.flatten_nil, List.append_nil, splitLines_of_no_newline buffer hbuf]
    rcases hdf : decodeFrame buffer with _ | chunk <;>
      simp [framePayloads, cumulativeFrom, hdf]
  | cons read reads ih =>
    intro buffer fullText hbuf
    have hls : splitLines (buffer ++ read) ≠ [] := splitLines_ne_nil _
    have hnb : '\n' ∉ (splitLines (buffer ++ read)).getLastD [] :=
      splitLines_no_newline (buffer ++ read) _ (getLastD_mem _ [] hls)
    rw [runAdapter]
    simp only [processLines_eq]
    rw [ih _ _ hnb]
    rw [List.flatten_cons, ← List.append_assoc, splitLines_append (buffer ++ read),
      joinLast_eq_dropLast _ _ hls, joinLast_singleton _ _ hnb]
    simp only [framePayloads, List.filterMap_append, cumulativeFrom_append]

/-- C1: for every sequence of network reads, the streaming adapter buffers the
incomplete trailing line across reads and, for each decoded `0:`-tagged frame,
yields the cumulative concatenation of all payloads decoded so far — the
yields depend only on the concatenated stream, never on where the read
boundaries fall; in particular the frames `0:"Hel"`, `0:"lo"` arriving split
mid-line across two reads yield exactly `"Hel"` then `"Hello"`. -/
theorem claim_C1_streaming_cumulative :
    (∀ reads : List (List Char),
      runAdapter [] [] reads =
        cumulativeFrom [] (framePayloads (splitLines reads.flatten))) ∧
    runAdapter [] [] [lit "0:\"Hel\"\n0:\"l", lit "o\"\n"] = [lit "Hel", lit "Hello"] := by
  constructor
  · intro reads
    rw [runAdapter_eq reads [] [] (by simp)]
    rfl
  · decide

/-! ## Claim C8 -/

/-- C8 (code-bug evidence): the source's selection-change handler is a bare
`setTimeout(..., 500)` per event whose handle is never stored or cleared, so a
burst of two events 100ms apart fires two delayed callbacks (at 500ms and
600ms) — one per event — whereas the debounce the code's own comment and the
spec describe would fire a single callback 500ms after the burst goes quiet
(at 600ms). The handler body also only refreshes the stored `selectedRange`,
not a full `refresh()`. -/
theorem claim_C8_delay_not_debounce :
    selectionCallbackTimes [0, 100] = [500, 600] ∧
    debouncedCallbackTimes [0, 100] = [600] ∧
    (selectionCallbackTimes [0, 100]).length = 2 ∧
    (debouncedCallbackTimes [0, 100]).length = 1 := by
  decide

end CursorExcel
